import Mathlib

/-!
Verification development for the knowledge-base service (`kb_api.py`) and the
sandboxed calculator tool (`tools/calculator/main.py`).

The embedding models:
* the document chunker (chunk size 1000, overlap 200) and the round-trip
  reassembly property;
* the collection storage layer (a base directory whose entries are either
  collection directories holding chunks, or stray plain files), the upload
  pipeline of `upload_document`, the query pipeline of `query_collection`,
  `delete_collection` and `get_collection_stats`;
* the distance-to-score conversion `score = max(0, 1 - distance / 3)`;
* the AST-walking `safe_eval` of the calculator tool.
-/

namespace KB

universe u

variable {α : Type u}

/-- A stored chunk with its provenance metadata, as attached in
`upload_document`: the chunk text plus `source_file` and `collection`
metadata fields.  The ingestion timestamp carried by the real metadata is
omitted from the model (no claim depends on it). -/
structure Chunk where
  content : String
  source_file : String
  collection : String
deriving DecidableEq

/-! ### Chunker

Modelled from the spec: the chunker implementation is the external
`RecursiveCharacterTextSplitter` library class, configured in `kb_api.py`
with `chunk_size = 1000`, `chunk_overlap = 200`, `length_function = len`.
The spec contracts it to produce chunks of at most `N` units with the final
`O` units of each chunk repeated as the leading context of the next chunk
(first chunk has no left overlap, last chunk may be short), and zero chunks
for empty input.  `chunkGo` emits the window starting at the current
position and advances by `k + 1 = N - O` positions; the fuel argument is
instantiated with the text length, which suffices because every step
consumes at least one position. -/
def chunkGo (N k : ℕ) : ℕ → List α → List (List α)
  | 0, _ => []
  | fuel + 1, s =>
    if s.isEmpty then []
    else if s.length ≤ N then [s]
    else s.take N :: chunkGo N k fuel (s.drop (k + 1))

/-- Split a document into chunks of at most `N` units, with the final `O`
units of each chunk repeated at the start of the next chunk. -/
def splitIntoChunks (N O : ℕ) (s : List α) : List (List α) :=
  chunkGo N (N - O - 1) s.length s

/-- The text splitter exactly as configured in `kb_api.py`:
chunk size 1000, overlap 200, length measured in characters. -/
def text_splitter (s : List Char) : List (List Char) :=
  splitIntoChunks 1000 200 s

/-- Reassembly described by the spec round-trip property: keep the first
chunk whole and remove the leading `O`-unit overlap of every later chunk,
then concatenate. -/
def reassemble (O : ℕ) : List (List α) → List α
  | [] => []
  | c :: rest => c ++ (rest.map (fun x => x.drop O)).flatten

/-! ### Storage layer

The base directory `kb_storage` contains one entry per name.  In normal
operation an entry is the Chroma persist directory of a collection, holding
its chunks; the model also admits a stray plain file at such a path, since
the code only ever tests `os.path.exists` (not `os.path.isdir`) before
opening a path as a collection. -/

/-- An entry of the base storage directory: a collection directory with its
stored chunks, or a plain (non-directory) file. -/
inductive Entry where
  | dir (chunks : List Chunk)
  | file
deriving DecidableEq

/-- The contents of the `kb_storage` base directory: an association of
names to entries. -/
def Storage := List (String × Entry)

instance : DecidableEq Storage := by
  unfold Storage
  infer_instance

/-- Look up the entry stored under `name`, mirroring a filesystem lookup of
`os.path.join(CHROMA_BASE_DIR, name)`. -/
def lookupEntry (name : String) : Storage → Option Entry
  | [] => none
  | (n, e) :: rest => if n = name then some e else lookupEntry name rest

/-- Replace the entry stored under `name` (no change when absent). -/
def setEntry (name : String) (e : Entry) : Storage → Storage
  | [] => []
  | (n, e0) :: rest =>
    if n = name then (n, e) :: rest else (n, e0) :: setEntry name e rest

/-- Remove the entry stored under `name`, mirroring `shutil.rmtree` on the
collection path: afterwards no entry under that name remains (a directory
holds each name at most once). -/
def removeEntry (name : String) (storage : Storage) : Storage :=
  storage.filter (fun p => !(p.1 == name))

/-- The existence check of the spec Collection Manager: true iff the
storage path of the name exists and is a directory. -/
def existsDir (name : String) (storage : Storage) : Bool :=
  match lookupEntry name storage with
  | some (Entry.dir _) => true
  | _ => false

/-- Mutable system state seen by one request: the base directory contents
and whether a scratch copy of the current upload is still on disk. -/
structure SysState where
  storage : Storage
  scratch : Bool
deriving DecidableEq

/-! ### Errors and responses -/

/-- Exceptions that can be raised inside the `try` block of
`upload_document` or `query_collection`; the blanket `except Exception`
of those endpoints converts any of them into an HTTP 500. -/
inductive TryExc where
  | copyFailed
  | parserFailed
  | noContent
  | storageFailed
deriving DecidableEq

/-- The HTTP errors the endpoints can answer with.  `serverError` is the
catch-all 500 produced by the `except Exception` handlers, remembering
which inner exception it wrapped. -/
inductive ApiError where
  | unsupportedFormat
  | invalidName
  | notFound
  | serverError (inner : TryExc)
deriving DecidableEq

/-- HTTP status code attached to each error by the endpoints. -/
def statusOf : ApiError → ℕ
  | ApiError.unsupportedFormat => 400
  | ApiError.invalidName => 400
  | ApiError.notFound => 404
  | ApiError.serverError _ => 500

/-- Successful `upload_document` response payload (the human-readable
`status` and `message` strings are omitted). -/
structure UploadOk where
  collection : String
  chunks_added : ℕ
  filename : String
deriving DecidableEq

/-! ### Name and extension validation -/

/-- A character of the spec charset `[A-Za-z0-9_-]`. -/
def charsetOK (c : Char) : Bool :=
  c.isAlphanum || c = '_' || c = '-'

/-- The spec rule for collection names, stated from the spec words: one or
more characters, each of them a Latin letter, ASCII digit, hyphen or
underscore (the regex `[A-Za-z0-9_-]+`).  Spec-side definition, kept to
compare against the validation the code performs. -/
def matchesNameCharset (s : String) : Bool :=
  !s.data.isEmpty && s.data.all charsetOK

/-- Explicit table for the non-ASCII part of CPython `str.isalnum`: the
non-ASCII code points this development reasons about, with their CPython
classification.  CPython accepts U+00E9 (LATIN SMALL LETTER E WITH ACUTE)
as alphanumeric.  Every statement that quantifies over collection names is
restricted to the exactly-modelled domain `modelledChar`. -/
def pyNonAsciiAlnum (c : Char) : Bool :=
  c = 'é'

/-- Per-character test of CPython `str.isalnum`, which is Unicode-aware:
on the ASCII range it coincides with `Char.isAlphanum` (exactly the
characters `[0-9A-Za-z]`); beyond ASCII it follows the Unicode character
database, modelled here by the explicit table `pyNonAsciiAlnum`. -/
def pyIsAlnumChar (c : Char) : Bool :=
  if c.toNat < 128 then c.isAlphanum else pyNonAsciiAlnum c

/-- A character on which `pyIsAlnumChar` is known to agree with CPython:
the ASCII range plus the tabled code points. -/
def modelledChar (c : Char) : Bool :=
  decide (c.toNat < 128) || pyNonAsciiAlnum c

/-- The validation performed by `upload_document`:
`collection.replace(chr(95), nil).replace(chr(45), nil).isalnum()`, i.e.
delete every underscore and hyphen and require the remainder to be a
non-empty string of `str.isalnum` characters. -/
def validateName (s : String) : Bool :=
  let stripped := s.data.filter (fun c => !(c = '_' || c = '-'))
  !stripped.isEmpty && stripped.all pyIsAlnumChar

/-- The extension produced by `os.path.splitext(filename)[1]` for a plain
file name: the suffix starting at the last dot, provided at least one
earlier character is not a dot (so names made of leading dots only, such
as hidden files, have no extension). -/
def splitextExt (s : String) : String :=
  match s.data.reverse.findIdx? (fun c => c = '.') with
  | none => ""
  | some r =>
    let dotPos := s.data.length - 1 - r
    if (s.data.take dotPos).any (fun c => c ≠ '.') then
      String.mk (s.data.drop dotPos)
    else ""

/-- `os.path.splitext(filename)[1].lower()` as computed by
`upload_document` (character-wise ASCII lowering). -/
def extLower (filename : String) : String :=
  String.mk ((splitextExt filename).data.map Char.toLower)

/-- The keys of `SUPPORTED_EXTENSIONS`. -/
def SUPPORTED_EXTENSIONS : List String :=
  [".pdf", ".txt", ".md", ".docx"]

/-! ### Ingestion -/

/-- The chunk batch built by `upload_document`: split the extracted text
with the configured splitter and attach `source_file` and `collection`
metadata to every chunk. -/
def mkChunks (filename collection text : String) : List Chunk :=
  (text_splitter text.data).map
    (fun c => { content := String.mk c
                source_file := filename
                collection := collection })

/-- The storage step of `upload_document`: if the collection path exists,
open it with Chroma and append the chunks; otherwise create a fresh
collection seeded with the chunks.  Opening a path that exists but is not
a directory makes Chroma raise, modelled by the `Except.error` case. -/
def createOrAppend (name : String) (chunks : List Chunk) (storage : Storage) :
    Except Unit Storage :=
  match lookupEntry name storage with
  | some (Entry.dir cs) =>
    Except.ok (setEntry name (Entry.dir (cs ++ chunks)) storage)
  | some Entry.file => Except.error ()
  | none => Except.ok ((name, Entry.dir chunks) :: storage)

instance exceptDecEq {ε β : Type u} [DecidableEq ε] [DecidableEq β] :
    DecidableEq (Except ε β) := fun a b =>
  match a, b with
  | Except.error x, Except.error y =>
    if h : x = y then Decidable.isTrue (by rw [h])
    else Decidable.isFalse (by simp [h])
  | Except.error _, Except.ok _ => Decidable.isFalse (by simp)
  | Except.ok _, Except.error _ => Decidable.isFalse (by simp)
  | Except.ok x, Except.ok y =>
    if h : x = y then Decidable.isTrue (by rw [h])
    else Decidable.isFalse (by simp [h])

/-- External inputs of one `upload_document` request: whether copying the
upload stream into the scratch file succeeds, and the outcome of the
format-specific parser (`loader.load()`), flattened to the extracted
text. -/
structure UploadEnv where
  copyOk : Bool
  parserResult : Except Unit String
deriving DecidableEq

/-- The `upload_document` endpoint.  Mirrors the source order:
1. extension check (HTTP 400 before anything else);
2. collection-name check (HTTP 400 before any storage access);
3. `tempfile.NamedTemporaryFile(delete=False)` creates the scratch copy;
   if `shutil.copyfileobj` then fails, the exception is re-raised as a 500
   by `except Exception`, and the `finally` block reads the still unbound
   `temp_path` variable, raising `NameError`, so the scratch file is NOT
   removed on this path;
4. parser failure, empty chunk list (the inner `HTTPException(400)` is
   swallowed by `except Exception` and re-raised as a 500), and storage
   failure all propagate as 500 after the `finally` block removed the
   scratch copy;
5. otherwise the chunks are stored and a success payload returned. -/
def upload (filename collection : String) (env : UploadEnv) (st : SysState) :
    Except ApiError UploadOk × SysState :=
  if extLower filename ∈ SUPPORTED_EXTENSIONS then
    if validateName collection then
      if env.copyOk then
        match env.parserResult with
        | Except.error _ =>
          (Except.error (ApiError.serverError TryExc.parserFailed),
            { st with scratch := false })
        | Except.ok text =>
          let chunks := mkChunks filename collection text
          if chunks.isEmpty then
            (Except.error (ApiError.serverError TryExc.noContent),
              { st with scratch := false })
          else
            match createOrAppend collection chunks st.storage with
            | Except.error _ =>
              (Except.error (ApiError.serverError TryExc.storageFailed),
                { st with scratch := false })
            | Except.ok storage2 =>
              (Except.ok { collection := collection
                           chunks_added := chunks.length
                           filename := filename },
                { storage := storage2, scratch := false })
      else
        (Except.error (ApiError.serverError TryExc.copyFailed),
          { st with scratch := true })
    else
      (Except.error ApiError.invalidName, st)
  else
    (Except.error ApiError.unsupportedFormat, st)

/-! ### Query -/

/-- Distance-to-score conversion of `query_collection`:
`score = max(0.0, 1.0 - distance / 3.0)`. -/
def score (d : ℚ) : ℚ :=
  max 0 (1 - d / 3)

/-- One formatted query result, as built by `query_collection`: the chunk
content together with both the raw distance and the derived score. -/
structure ResultEntry where
  content : String
  distance : ℚ
  score : ℚ
deriving DecidableEq

/-- The result-formatting comprehension of `query_collection`: each
`(doc, rawDistance)` pair from the index becomes an entry keeping the raw
distance and adding the derived score. -/
def formatResults (pairs : List (Chunk × ℚ)) : List ResultEntry :=
  pairs.map (fun p => { content := p.1.content
                        distance := p.2
                        score := score p.2 })

/-- Successful `query_collection` response payload. -/
structure QueryOk where
  documents : List ResultEntry
  count : ℕ
deriving DecidableEq

/-- External input of one `query_collection` request: the ranked
`(chunk, rawDistance)` pairs the similarity search of the opaque vector
index returns.  The index draws results from the stored vectors, so it
never returns more pairs than the collection holds (hypothesis of the
theorems that need it). -/
structure QueryEnv where
  rawResults : List (Chunk × ℚ)
deriving DecidableEq

/-- The `query_collection` endpoint: HTTP 404 when the collection path
does not exist at all (`os.path.exists`); opening a non-directory path
makes Chroma raise, re-raised as 500 by `except Exception`; otherwise the
formatted results are returned with `count = len(documents)`. -/
def query (name : String) (env : QueryEnv) (st : SysState) :
    Except ApiError QueryOk :=
  match lookupEntry name st.storage with
  | none => Except.error ApiError.notFound
  | some Entry.file => Except.error (ApiError.serverError TryExc.storageFailed)
  | some (Entry.dir _) =>
    Except.ok { documents := formatResults env.rawResults
                count := (formatResults env.rawResults).length }

/-! ### Delete and stats -/

/-- The `delete_collection` endpoint: HTTP 404 when the path does not
exist; `shutil.rmtree` on a plain file raises and is re-raised as 500;
otherwise the entire storage subtree of the collection is removed. -/
def delete_collection (name : String) (st : SysState) :
    Except ApiError Unit × SysState :=
  match lookupEntry name st.storage with
  | none => (Except.error ApiError.notFound, st)
  | some Entry.file =>
    (Except.error (ApiError.serverError TryExc.storageFailed), st)
  | some (Entry.dir _) =>
    (Except.ok (), { st with storage := removeEntry name st.storage })

/-- Bump the tally of `source` in the histogram, mirroring
`source_files[source] = source_files.get(source, 0) + 1`. -/
def bumpTally (source : String) : List (String × ℕ) → List (String × ℕ)
  | [] => [(source, 1)]
  | (s, n) :: rest =>
    if s = source then (s, n + 1) :: rest else (s, n) :: bumpTally source rest

/-- The per-source-file chunk histogram of `get_collection_stats`. -/
def tallySources (chunks : List Chunk) : List (String × ℕ) :=
  chunks.foldl (fun acc c => bumpTally c.source_file acc) []

/-- Successful `get_collection_stats` response payload (timestamps
omitted). -/
structure StatsOk where
  collection : String
  total_chunks : ℕ
  source_files : List (String × ℕ)
  file_count : ℕ
deriving DecidableEq

/-- The `get_collection_stats` endpoint: HTTP 404 when the path does not
exist; opening a non-directory path raises, re-raised as 500;
otherwise `total_chunks = collection.count()` together with the
source-file histogram. -/
def get_collection_stats (name : String) (st : SysState) :
    Except ApiError StatsOk :=
  match lookupEntry name st.storage with
  | none => Except.error ApiError.notFound
  | some Entry.file => Except.error (ApiError.serverError TryExc.storageFailed)
  | some (Entry.dir cs) =>
    Except.ok { collection := name
                total_chunks := cs.length
                source_files := tallySources cs
                file_count := (tallySources cs).length }

/-- A sequence of ingestions into the same collection: run
`createOrAppend` once per batch, stopping at the first failure. -/
def ingestSeq (name : String) : List (List Chunk) → Storage → Except Unit Storage
  | [], storage => Except.ok storage
  | b :: rest, storage =>
    match createOrAppend name b storage with
    | Except.error e => Except.error e
    | Except.ok s2 => ingestSeq name rest s2

end KB

namespace Calc

/-! ### Calculator tool

Embedding of `tools/calculator/main.py`: the `ast` nodes `safe_eval` can
meet and the recursive `eval_node` walker.  Numeric values are modelled as
rationals; a power with a non-integer exponent, which Python evaluates in
floating point, is outside the rational model and marked with the
dedicated `nonIntegerPow` outcome (no claim depends on numeric results of
powers). -/

/-- Python binary-operator AST nodes: the five entries of `SAFE_OPS` plus
representatives of the operators `SAFE_OPS` omits. -/
inductive PyBinOp where
  | add
  | sub
  | mult
  | div
  | pow
  | mod
  | floorDiv
  | bitOr
deriving DecidableEq

/-- Python unary-operator AST nodes: `USub` is the only entry of
`SAFE_OPS`. -/
inductive PyUnOp where
  | uSub
  | uAdd
  | notOp
  | invert
deriving DecidableEq

/-- Python expression AST nodes reachable from `ast.parse(expr, mode =
eval-mode)`.  `num` is a numeric constant (matched by `isinstance(node,
ast.Num)`); `constOther` is any non-numeric constant (string, boolean,
None), which that isinstance test rejects.  The argument list of `call` is
abstracted to its length because `eval_node` raises on a `Call` node
before inspecting the callee or the arguments. -/
inductive PyExpr where
  | num (value : ℚ)
  | constOther
  | name (id : String)
  | binOp (op : PyBinOp) (left right : PyExpr)
  | unaryOp (op : PyUnOp) (operand : PyExpr)
  | call (func : PyExpr) (argc : ℕ)
  | attrAccess (value : PyExpr) (attrName : String)
  | subscript (value index : PyExpr)
  | compare (left right : PyExpr)

/-- Errors `eval_node` can raise: the explicit `ValueError` for
unsupported nodes and operators, `ZeroDivisionError` from `truediv`, and
the marker for powers outside the rational model. -/
inductive EvalErr where
  | valueError
  | zeroDivision
  | nonIntegerPow
deriving DecidableEq

/-- `SAFE_OPS.get(type(node.op))` for binary operators: the function
applied to the evaluated operands, or `none` for operators outside
`SAFE_OPS`. -/
def binOpFn : PyBinOp → Option (ℚ → ℚ → Except EvalErr ℚ)
  | PyBinOp.add => some (fun a b => Except.ok (a + b))
  | PyBinOp.sub => some (fun a b => Except.ok (a - b))
  | PyBinOp.mult => some (fun a b => Except.ok (a * b))
  | PyBinOp.div => some (fun a b =>
      if b = 0 then Except.error EvalErr.zeroDivision else Except.ok (a / b))
  | PyBinOp.pow => some (fun a b =>
      if b.den = 1 then
        if a = 0 ∧ b.num < 0 then Except.error EvalErr.zeroDivision
        else Except.ok (a ^ b.num)
      else Except.error EvalErr.nonIntegerPow)
  | _ => none

/-- `SAFE_OPS.get(type(node.op))` for unary operators: only `USub` is
present. -/
def unOpFn : PyUnOp → Option (ℚ → Except EvalErr ℚ)
  | PyUnOp.uSub => some (fun a => Except.ok (-a))
  | _ => none

/-- The recursive `eval_node` of `safe_eval`: numeric constants evaluate
to themselves; `BinOp` and `UnaryOp` look their operator up in `SAFE_OPS`
and raise `ValueError` when it is absent, before evaluating any operand;
every other node kind raises `ValueError` immediately. -/
def eval_node : PyExpr → Except EvalErr ℚ
  | PyExpr.num v => Except.ok v
  | PyExpr.binOp op l r =>
    match binOpFn op with
    | none => Except.error EvalErr.valueError
    | some f =>
      match eval_node l with
      | Except.error e => Except.error e
      | Except.ok lv =>
        match eval_node r with
        | Except.error e => Except.error e
        | Except.ok rv => f lv rv
  | PyExpr.unaryOp op e =>
    match unOpFn op with
    | none => Except.error EvalErr.valueError
    | some f =>
      match eval_node e with
      | Except.error e2 => Except.error e2
      | Except.ok v => f v
  | _ => Except.error EvalErr.valueError

/-- An expression built exclusively from numeric literals and the
whitelisted operators: binary add, sub, mult, div, pow and unary
negation. -/
def safeOnly : PyExpr → Bool
  | PyExpr.num _ => true
  | PyExpr.binOp op l r => (binOpFn op).isSome && safeOnly l && safeOnly r
  | PyExpr.unaryOp op e => (unOpFn op).isSome && safeOnly e
  | _ => false

/-- An expression whose top node is outside the whitelist: a name, call,
attribute access, subscript, comparison, non-numeric constant, or an
operator node whose operator is missing from `SAFE_OPS`. -/
def unsafeHead : PyExpr → Bool
  | PyExpr.num _ => false
  | PyExpr.binOp op _ _ => (binOpFn op).isNone
  | PyExpr.unaryOp op _ => (unOpFn op).isNone
  | _ => true

end Calc

namespace KB

lemma chunkGo_drop_flatten (N k O : ℕ) (hN : k + 1 + O = N) :
    ∀ (fuel : ℕ) (s : List α), s.length ≤ fuel →
      ((chunkGo N k fuel s).map (fun c => c.drop O)).flatten = s.drop O := by
  intro fuel
  induction fuel with
  | zero =>
    intro s hs
    have hnil : s = [] := List.eq_nil_of_length_eq_zero (Nat.le_zero.mp hs)
    subst hnil
    simp [chunkGo]
  | succ fuel ih =>
    intro s hs
    by_cases hemp : s.isEmpty
    · have hnil : s = [] := List.isEmpty_iff.mp hemp
      subst hnil
      simp [chunkGo]
    · by_cases hlen : s.length ≤ N
      · simp [chunkGo, hemp, hlen]
      · have hdroplen : (s.drop (k + 1)).length ≤ fuel := by
          rw [List.length_drop]
          omega
        have hrec := ih (s.drop (k + 1)) hdroplen
        simp only [chunkGo, hemp, hlen, if_false, Bool.false_eq_true,
          List.map_cons, List.flatten_cons]
        rw [hrec]
        have h2 : (s.drop (k + 1)).drop O = s.drop N := by
          rw [List.drop_drop, hN]
        have h3 : (s.take N).drop O = (s.drop O).take (N - O) :=
          List.drop_take N O s
        rw [h2, h3]
        have h4 : s.drop N = s.drop (O + (N - O)) := by
          congr 1
          omega
        rw [h4]
        exact List.drop_take_append_drop s O (N - O)

lemma reassemble_chunkGo (N k O : ℕ) (hN : k + 1 + O = N) :
    ∀ (fuel : ℕ) (s : List α), s.length ≤ fuel →
      reassemble O (chunkGo N k fuel s) = s := by
  intro fuel
  cases fuel with
  | zero =>
    intro s hs
    have hnil : s = [] := List.eq_nil_of_length_eq_zero (Nat.le_zero.mp hs)
    subst hnil
    simp [chunkGo, reassemble]
  | succ fuel =>
    intro s hs
    by_cases hemp : s.isEmpty
    · have hnil : s = [] := List.isEmpty_iff.mp hemp
      subst hnil
      simp [chunkGo, reassemble]
    · by_cases hlen : s.length ≤ N
      · simp [chunkGo, hemp, hlen, reassemble]
      · have hdroplen : (s.drop (k + 1)).length ≤ fuel := by
          rw [List.length_drop]
          omega
        simp only [chunkGo, hemp, hlen, if_false, Bool.false_eq_true, reassemble]
        rw [chunkGo_drop_flatten N k O hN fuel (s.drop (k + 1)) hdroplen]
        have h2 : (s.drop (k + 1)).drop O = s.drop N := by
          rw [List.drop_drop, hN]
        rw [h2]
        exact List.take_append_drop N s


/-- C6: chunking a document of any length with chunk size 1000 and overlap
200 via the configured `text_splitter`, then reassembling by removing the
200-character overlapping region at the start of each chunk after the
first, reproduces the original text exactly. -/
theorem text_splitter_roundtrip (s : List Char) :
    reassemble 200 (text_splitter s) = s := by
  have h : (799 : ℕ) + 1 + 200 = 1000 := by norm_num
  have hk : (1000 : ℕ) - 200 - 1 = 799 := by norm_num
  simp only [text_splitter, splitIntoChunks, hk]
  exact reassemble_chunkGo 1000 799 200 h s.length s le_rfl


end KB

namespace KB

/-! ### Score properties (C1) -/

/-- C1: the derived similarity score equals `max(0, 1 - rawDistance/3)` by
definition of `score`; for every nonnegative raw distance (distances of
the squared-Euclidean-style metric are nonnegative) the score lies in
`[0, 1]`; the score is antitone in the raw distance; and the result
formatter keeps the raw distance of every pair and stores exactly the
derived score next to it. -/
theorem score_spec :
    (∀ d : ℚ, 0 ≤ d → 0 ≤ score d ∧ score d ≤ 1) ∧
    (∀ d1 d2 : ℚ, d1 < d2 → score d2 ≤ score d1) ∧
    (∀ pairs : List (Chunk × ℚ),
      (formatResults pairs).map ResultEntry.distance = pairs.map Prod.snd ∧
      ∀ r ∈ formatResults pairs, r.score = score r.distance) := by
  refine ⟨?_, ?_, ?_⟩
  · intro d hd
    refine ⟨le_max_left 0 _, ?_⟩
    apply max_le
    · norm_num
    · have h3 : 0 ≤ d / 3 := by positivity
      linarith
  · intro d1 d2 h
    apply max_le (le_max_left 0 _)
    have h1 : 1 - d2 / 3 ≤ 1 - d1 / 3 := by linarith
    exact le_trans h1 (le_max_right 0 _)
  · intro pairs
    constructor
    · simp [formatResults]
    · intro r hr
      obtain ⟨p, hp, hpr⟩ := List.mem_map.mp hr
      rw [← hpr]

/-- Witness for C1 at concrete inputs. -/
theorem score_spec_witness :
    (0 ≤ score 2 ∧ score 2 ≤ 1) ∧
    score 2 ≤ score 1 ∧
    ∀ r ∈ formatResults [(⟨"a", "f.txt", "docs"⟩, 2)], r.score = score r.distance :=
  ⟨score_spec.1 2 (by decide),
   score_spec.2.1 1 2 (by decide),
   (score_spec.2.2 [(⟨"a", "f.txt", "docs"⟩, 2)]).2⟩

/-! ### Name validation (C2) -/

lemma all_filter_alphanum (l : List Char) :
    (l.filter (fun c => !(c = '_' || c = '-'))).all Char.isAlphanum
      = l.all charsetOK := by
  induction l with
  | nil => rfl
  | cons c l ih =>
    by_cases h1 : c = '_'
    · subst h1
      simpa [List.filter_cons, List.all_cons, charsetOK] using ih
    · by_cases h2 : c = '-'
      · subst h2
        simpa [List.filter_cons, List.all_cons, charsetOK] using ih
      · have hc : charsetOK c = c.isAlphanum := by simp [charsetOK, h1, h2]
        have hk : (!(c = '_' || c = '-')) = true := by simp [h1, h2]
        rw [List.filter_cons, if_pos hk, List.all_cons, List.all_cons, ih, hc]

lemma validate_chars_iff (l : List Char) :
    (!(l.filter (fun c => !(c = '_' || c = '-'))).isEmpty
      && (l.filter (fun c => !(c = '_' || c = '-'))).all Char.isAlphanum) = true
    ↔ (l.all charsetOK = true ∧ l.any Char.isAlphanum = true) := by
  induction l with
  | nil => simp
  | cons c l ih =>
    by_cases h1 : c = '_'
    · subst h1
      have ha : Char.isAlphanum '_' = false := by decide
      have hcs : charsetOK '_' = true := by decide
      simpa [List.filter_cons, List.all_cons, List.any_cons, ha, hcs] using ih
    · by_cases h2 : c = '-'
      · subst h2
        have ha : Char.isAlphanum '-' = false := by decide
        have hcs : charsetOK '-' = true := by decide
        simpa [List.filter_cons, List.all_cons, List.any_cons, ha, hcs] using ih
      · have hk : (!(c = '_' || c = '-')) = true := by simp [h1, h2]
        have hc : charsetOK c = c.isAlphanum := by simp [charsetOK, h1, h2]
        rw [List.filter_cons, if_pos hk]
        simp only [List.all_cons, List.any_cons, List.isEmpty_cons,
          Bool.not_false, Bool.true_and, Bool.and_eq_true, Bool.or_eq_true,
          hc, all_filter_alphanum]
        constructor
        · rintro ⟨hca, hrest⟩
          exact ⟨⟨hca, hrest⟩, Or.inl hca⟩
        · rintro ⟨⟨hca, hrest⟩, _⟩
          exact ⟨hca, hrest⟩

/-- C2 counterexample: the name consisting of a single underscore matches
the spec charset `[A-Za-z0-9_-]+`, yet `upload_document` rejects it with
`InvalidNameError`, because stripping underscores and hyphens leaves the
empty string and the empty string is not alphanumeric. -/
theorem name_validation_counterexample :
    matchesNameCharset "_" = true ∧
    validateName "_" = false ∧
    upload "a.txt" "_" ⟨true, Except.ok "hello"⟩ ⟨[], false⟩ =
      (Except.error ApiError.invalidName, ⟨[], false⟩) := by
  refine ⟨by decide, by decide, by decide⟩

lemma all_py_of_ascii :
    ∀ l : List Char, (∀ c ∈ l, c.toNat < 128) →
      l.all pyIsAlnumChar = l.all Char.isAlphanum := by
  intro l h
  induction l with
  | nil => rfl
  | cons c t ih =>
    have hc : pyIsAlnumChar c = c.isAlphanum := by
      unfold pyIsAlnumChar
      rw [if_pos (h c (List.mem_cons_self c t))]
    rw [List.all_cons, List.all_cons, hc,
      ih (fun x hx => h x (List.mem_cons_of_mem c hx))]

/-- C2 amended: `upload_document` accepts a collection name iff deleting
every underscore and hyphen leaves a non-empty string accepted by the
Unicode-aware CPython `str.isalnum`.  Restricted to ASCII names this is:
every character in `[A-Za-z0-9_-]` AND at least one character a letter or
digit (so names made only of hyphens and underscores are rejected);
beyond ASCII the iff with the charset also fails in the accepting
direction, since non-ASCII alphanumeric names outside the charset, such as
`é`, are accepted and ingested.  Every rejected name in the exactly
modelled domain fails with `InvalidNameError` with no state change, before
any storage access. -/
theorem name_validation_amended :
    (∀ s : String, s.data.all (fun c => c.toNat < 128) = true →
      (validateName s = true ↔
        (s.data.all charsetOK = true ∧ s.data.any Char.isAlphanum = true))) ∧
    (validateName "é" = true ∧ matchesNameCharset "é" = false ∧
      upload "a.txt" "é" ⟨true, Except.ok "hello"⟩ ⟨[], false⟩ =
        (Except.ok ⟨"é", 1, "a.txt"⟩,
          ⟨[("é", Entry.dir [⟨"hello", "a.txt", "é"⟩])], false⟩)) ∧
    (∀ (filename collection : String) (env : UploadEnv) (st : SysState),
      collection.data.all modelledChar = true →
      extLower filename ∈ SUPPORTED_EXTENSIONS →
      validateName collection = false →
      upload filename collection env st = (Except.error ApiError.invalidName, st)) := by
  refine ⟨?_, ⟨by decide, by decide, by decide⟩, ?_⟩
  · intro s hascii
    have hpy : (s.data.filter (fun c => !(c = '_' || c = '-'))).all pyIsAlnumChar
        = (s.data.filter (fun c => !(c = '_' || c = '-'))).all Char.isAlphanum := by
      apply all_py_of_ascii
      intro c hc
      have hmem := (List.mem_filter.mp hc).1
      simpa using List.all_eq_true.mp hascii c hmem
    have heq : validateName s
        = (!(s.data.filter (fun c => !(c = '_' || c = '-'))).isEmpty
            && (s.data.filter (fun c => !(c = '_' || c = '-'))).all Char.isAlphanum) := by
      show (!(s.data.filter (fun c => !(c = '_' || c = '-'))).isEmpty
          && (s.data.filter (fun c => !(c = '_' || c = '-'))).all pyIsAlnumChar) = _
      rw [hpy]
    rw [heq]
    exact validate_chars_iff s.data
  · intro filename collection env st hmod hext hname
    simp [upload, hext, hname]

/-- Witness for C2 at concrete inputs. -/
theorem name_validation_amended_witness :
    validateName "a-b" = true ∧
    upload "a.txt" "---" ⟨true, Except.ok "hello"⟩ ⟨[], false⟩ =
      (Except.error ApiError.invalidName, ⟨[], false⟩) :=
  ⟨(name_validation_amended.1 "a-b" (by decide)).mpr (by decide),
   name_validation_amended.2.2 "a.txt" "---" ⟨true, Except.ok "hello"⟩ ⟨[], false⟩
     (by decide) (by decide) (by decide)⟩

/-! ### No-content handling (C3) -/

/-- C3: evaluated at a supported upload whose extracted text is empty
(zero chunks), into a valid collection name.  The inner
`HTTPException(status_code=400)` raised for the empty chunk list is caught
by the blanket `except Exception` of `upload_document` and re-raised as
HTTP 500, a server fault, contradicting the user-input classification the
claim states; collection state is unchanged as claimed. -/
theorem no_content_reported_as_server_error :
    upload "empty.txt" "docs" ⟨true, Except.ok ""⟩ ⟨[], false⟩ =
      (Except.error (ApiError.serverError TryExc.noContent), ⟨[], false⟩) ∧
    statusOf (ApiError.serverError TryExc.noContent) = 500 := by
  refine ⟨by decide, rfl⟩

/-! ### Additive ingestion and stats (C4) -/

lemma lookup_setEntry_self (name : String) (e : Entry) :
    ∀ storage : Storage, lookupEntry name storage ≠ none →
      lookupEntry name (setEntry name e storage) = some e := by
  intro storage
  induction storage with
  | nil => intro h; simp [lookupEntry] at h
  | cons p rest ih =>
    obtain ⟨n, e0⟩ := p
    intro h
    by_cases hn : n = name
    · subst hn
      simp [setEntry, lookupEntry]
    · simp only [lookupEntry, hn, if_false] at h
      simp only [setEntry, hn, if_false, lookupEntry]
      exact ih h

lemma createOrAppend_dir {name : String} {b cs : List Chunk} {storage : Storage}
    (h : lookupEntry name storage = some (Entry.dir cs)) :
    createOrAppend name b storage
        = Except.ok (setEntry name (Entry.dir (cs ++ b)) storage) ∧
      lookupEntry name (setEntry name (Entry.dir (cs ++ b)) storage)
        = some (Entry.dir (cs ++ b)) := by
  refine ⟨by simp [createOrAppend, h], ?_⟩
  apply lookup_setEntry_self
  simp [h]

lemma ingestSeq_dir (name : String) :
    ∀ (batches : List (List Chunk)) (storage : Storage) (cs : List Chunk),
      lookupEntry name storage = some (Entry.dir cs) →
      ∃ s2, ingestSeq name batches storage = Except.ok s2 ∧
        lookupEntry name s2 = some (Entry.dir (cs ++ batches.flatten)) := by
  intro batches
  induction batches with
  | nil =>
    intro storage cs h
    exact ⟨storage, rfl, by simpa using h⟩
  | cons b rest ih =>
    intro storage cs h
    obtain ⟨hca, hlook⟩ := createOrAppend_dir (b := b) h
    obtain ⟨s2, h1, h2⟩ := ih (setEntry name (Entry.dir (cs ++ b)) storage) (cs ++ b) hlook
    refine ⟨s2, ?_, ?_⟩
    · simp [ingestSeq, hca, h1]
    · rw [h2]
      simp [List.append_assoc]

/-- C4: starting from a state where the collection does not exist, any
non-empty sequence of `createOrAppend` calls succeeds and a subsequent
stats call reports `total_chunks` equal to the sum of the chunk counts of
the calls; and appending a batch to an existing collection always grows
the stored count by exactly the batch size (additive, no dedup, no
overwrite), in particular when re-ingesting an already stored chunk
set. -/
theorem stats_total_additive :
    (∀ (name : String) (b : List Chunk) (batches : List (List Chunk))
        (storage : Storage),
      lookupEntry name storage = none →
      ∃ s2 stats, ingestSeq name (b :: batches) storage = Except.ok s2 ∧
        get_collection_stats name ⟨s2, false⟩ = Except.ok stats ∧
        stats.total_chunks = ((b :: batches).map List.length).sum) ∧
    (∀ (name : String) (cs b : List Chunk) (storage : Storage),
      lookupEntry name storage = some (Entry.dir cs) →
      ∃ s2 stats, createOrAppend name b storage = Except.ok s2 ∧
        get_collection_stats name ⟨s2, false⟩ = Except.ok stats ∧
        stats.total_chunks = cs.length + b.length) := by
  constructor
  · intro name b batches storage h
    have hfirst : createOrAppend name b storage
        = Except.ok ((name, Entry.dir b) :: storage) := by
      simp [createOrAppend, h]
    have hlook : lookupEntry name ((name, Entry.dir b) :: storage)
        = some (Entry.dir b) := by
      simp [lookupEntry]
    obtain ⟨s2, h1, h2⟩ := ingestSeq_dir name batches _ b hlook
    refine ⟨s2, ⟨name, (b ++ batches.flatten).length,
      tallySources (b ++ batches.flatten),
      (tallySources (b ++ batches.flatten)).length⟩, ?_, ?_, ?_⟩
    · simp only [ingestSeq, hfirst]
      exact h1
    · simp [get_collection_stats, h2]
    · simp [List.length_append, List.length_flatten]
  · intro name cs b storage h
    obtain ⟨hca, hlook⟩ := createOrAppend_dir (b := b) h
    refine ⟨setEntry name (Entry.dir (cs ++ b)) storage,
      ⟨name, (cs ++ b).length, tallySources (cs ++ b),
        (tallySources (cs ++ b)).length⟩, hca, ?_, ?_⟩
    · simp [get_collection_stats, hlook]
    · simp

/-- Witness for C4 at concrete inputs: ingesting the same one-chunk batch
twice into a fresh collection stores two chunks. -/
theorem stats_total_additive_witness :
    ∃ s2 stats,
      ingestSeq "docs" [[⟨"x", "f.txt", "docs"⟩], [⟨"x", "f.txt", "docs"⟩]] []
        = Except.ok s2 ∧
      get_collection_stats "docs" ⟨s2, false⟩ = Except.ok stats ∧
      stats.total_chunks = 2 := by
  obtain ⟨s2, stats, h1, h2, h3⟩ :=
    stats_total_additive.1 "docs" [⟨"x", "f.txt", "docs"⟩]
      [[⟨"x", "f.txt", "docs"⟩]] [] rfl
  exact ⟨s2, stats, h1, h2, by simpa using h3⟩

end KB

namespace KB

/-! ### Query existence handling (C5) -/

/-- C5 counterexample: a state whose `docs` storage path exists but is a
plain file, not a directory.  The spec existence rule says the collection
does not exist, so the claim requires `NotFoundError`; but
`query_collection` only tests `os.path.exists`, proceeds, and the failing
Chroma open is re-raised as HTTP 500, not 404. -/
theorem query_existence_counterexample :
    existsDir "docs" [("docs", Entry.file)] = false ∧
    query "docs" ⟨[]⟩ ⟨[("docs", Entry.file)], false⟩ =
      Except.error (ApiError.serverError TryExc.storageFailed) := by
  refine ⟨by decide, by decide⟩

/-- C5 amended: `query_collection` fails with `NotFoundError` exactly when
the storage path of the target collection is absent altogether (the code
tests `os.path.exists`, so a non-directory entry at the path is not
treated as missing); a query against an existing collection holding zero
vectors (from which the index can return no pairs) returns an empty result
list with `count = 0`, not an error. -/
theorem query_not_found_amended :
    (∀ (name : String) (env : QueryEnv) (st : SysState),
      query name env st = Except.error ApiError.notFound ↔
        lookupEntry name st.storage = none) ∧
    (∀ (name : String) (env : QueryEnv) (st : SysState),
      lookupEntry name st.storage = some (Entry.dir []) →
      env.rawResults.length ≤ 0 →
      query name env st = Except.ok ⟨[], 0⟩) := by
  constructor
  · intro name env st
    cases h : lookupEntry name st.storage with
    | none => simp [query, h]
    | some e =>
      cases e with
      | dir cs => simp [query, h]
      | file => simp [query, h]
  · intro name env st h hlen
    have hnil : env.rawResults = [] :=
      List.eq_nil_of_length_eq_zero (Nat.le_zero.mp hlen)
    simp [query, h, hnil, formatResults]

/-- Witness for C5 at concrete inputs. -/
theorem query_not_found_amended_witness :
    query "ghost" ⟨[]⟩ ⟨[], false⟩ = Except.error ApiError.notFound ∧
    query "docs" ⟨[]⟩ ⟨[("docs", Entry.dir [])], false⟩ = Except.ok ⟨[], 0⟩ :=
  ⟨(query_not_found_amended.1 "ghost" ⟨[]⟩ ⟨[], false⟩).mpr rfl,
   query_not_found_amended.2 "docs" ⟨[]⟩ ⟨[("docs", Entry.dir [])], false⟩
     (by decide) (by decide)⟩

/-! ### Unsupported extensions (C7) -/

/-- C7: for every upload whose lower-cased filename extension is outside
the supported set, `upload_document` fails with `UnsupportedFormatError`
and the returned state is exactly the input state: no collection change
and no scratch file, since the extension test precedes the temporary file
and all storage access. -/
theorem unsupported_extension_rejected :
    ∀ (filename collection : String) (env : UploadEnv) (st : SysState),
      extLower filename ∉ SUPPORTED_EXTENSIONS →
      upload filename collection env st =
        (Except.error ApiError.unsupportedFormat, st) := by
  intro filename collection env st h
  simp [upload, h]

/-- Witness for C7 at a concrete input. -/
theorem unsupported_extension_rejected_witness :
    upload "payload.exe" "docs" ⟨true, Except.ok "hi"⟩ ⟨[], false⟩ =
      (Except.error ApiError.unsupportedFormat, ⟨[], false⟩) :=
  unsupported_extension_rejected "payload.exe" "docs" ⟨true, Except.ok "hi"⟩
    ⟨[], false⟩ (by decide)

/-! ### Delete (C8) -/

lemma lookup_removeEntry_self (name : String) :
    ∀ storage : Storage, lookupEntry name (removeEntry name storage) = none := by
  intro storage
  induction storage with
  | nil => rfl
  | cons p rest ih =>
    obtain ⟨n, e0⟩ := p
    by_cases hn : n = name
    · subst hn
      simpa [removeEntry, List.filter_cons] using ih
    · have hb : (!(n == name)) = true := by simp [hn]
      simp only [removeEntry, List.filter_cons, hb, if_pos]
      simpa [lookupEntry, hn, removeEntry] using ih

lemma lookup_removeEntry_other {n name : String} (h : n ≠ name) :
    ∀ storage : Storage,
      lookupEntry n (removeEntry name storage) = lookupEntry n storage := by
  intro storage
  induction storage with
  | nil => rfl
  | cons p rest ih =>
    obtain ⟨m, e0⟩ := p
    by_cases hm : m = name
    · subst hm
      have hmn : ¬(m = n) := fun hc => h (hc ▸ rfl)
      show lookupEntry n (List.filter _ ((m, e0) :: rest)) = _
      rw [List.filter_cons]
      simp only [beq_self_eq_true, Bool.not_true]
      rw [if_neg (by simp)]
      rw [show lookupEntry n ((m, e0) :: rest) = lookupEntry n rest by
        simp [lookupEntry, hmn]]
      exact ih
    · have hb : (!(m == name)) = true := by simp [hm]
      show lookupEntry n (List.filter _ ((m, e0) :: rest)) = _
      rw [List.filter_cons, if_pos hb]
      by_cases hmn : m = n
      · simp [lookupEntry, hmn]
      · simp only [lookupEntry, hmn, if_false]
        exact ih

/-- C8 counterexample: a state whose `docs` storage path exists but is a
plain file, not a directory.  Per the spec existence rule the collection
does not exist, so the claim requires `NotFoundError`; but
`delete_collection` only tests `os.path.exists`, proceeds, and the
`shutil.rmtree` call failing on a non-directory is re-raised as HTTP 500
by the blanket `except Exception` — not 404. -/
theorem delete_collection_counterexample :
    existsDir "docs" [("docs", Entry.file)] = false ∧
    delete_collection "docs" ⟨[("docs", Entry.file)], false⟩ =
      (Except.error (ApiError.serverError TryExc.storageFailed),
        ⟨[("docs", Entry.file)], false⟩) := by
  refine ⟨by decide, by decide⟩

/-- C8 amended: `delete_collection` fails with `NotFoundError` exactly
when the storage path is absent altogether (the code tests
`os.path.exists`, so a non-directory entry at the path is not treated as
missing: there the failing `shutil.rmtree` yields a server error instead,
with the state unchanged), leaving the state untouched; on an existing
collection directory it succeeds and removes the entire storage subtree
for that collection while leaving every other name untouched — afterwards
the collection no longer exists and a query for it yields
`NotFoundError`, so no partial-collection state is observable after the
call completes or fails outright. -/
theorem delete_collection_amended :
    (∀ (name : String) (st : SysState),
      lookupEntry name st.storage = none →
      delete_collection name st = (Except.error ApiError.notFound, st)) ∧
    (∀ (name : String) (cs : List Chunk) (st : SysState),
      lookupEntry name st.storage = some (Entry.dir cs) →
      (delete_collection name st).1 = Except.ok () ∧
      lookupEntry name (delete_collection name st).2.storage = none ∧
      (∀ n : String, n ≠ name →
        lookupEntry n (delete_collection name st).2.storage =
          lookupEntry n st.storage) ∧
      (delete_collection name st).2.scratch = st.scratch ∧
      existsDir name (delete_collection name st).2.storage = false ∧
      query name ⟨[]⟩ (delete_collection name st).2 =
        Except.error ApiError.notFound) ∧
    (∀ (name : String) (st : SysState),
      lookupEntry name st.storage = some Entry.file →
      delete_collection name st =
        (Except.error (ApiError.serverError TryExc.storageFailed), st)) := by
  refine ⟨?_, ?_, ?_⟩
  · intro name st h
    simp [delete_collection, h]
  · intro name cs st h
    have hdel : delete_collection name st =
        (Except.ok (), { st with storage := removeEntry name st.storage }) := by
      simp [delete_collection, h]
    rw [hdel]
    refine ⟨rfl, lookup_removeEntry_self name st.storage, ?_, rfl, ?_, ?_⟩
    · intro n hn
      exact lookup_removeEntry_other hn st.storage
    · simp [existsDir, lookup_removeEntry_self name st.storage]
    · simp [query, lookup_removeEntry_self name st.storage]
  · intro name st h
    simp [delete_collection, h]

/-- Witness for C8 at concrete inputs. -/
theorem delete_collection_amended_witness :
    delete_collection "ghost" ⟨[("docs", Entry.dir [])], false⟩ =
      (Except.error ApiError.notFound, ⟨[("docs", Entry.dir [])], false⟩) ∧
    (delete_collection "docs" ⟨[("docs", Entry.dir [])], false⟩).1 = Except.ok () ∧
    query "docs" ⟨[]⟩ (delete_collection "docs" ⟨[("docs", Entry.dir [])], false⟩).2 =
      Except.error ApiError.notFound ∧
    delete_collection "notes" ⟨[("notes", Entry.file)], true⟩ =
      (Except.error (ApiError.serverError TryExc.storageFailed),
        ⟨[("notes", Entry.file)], true⟩) :=
  ⟨delete_collection_amended.1 "ghost" ⟨[("docs", Entry.dir [])], false⟩ (by decide),
   (delete_collection_amended.2.1 "docs" [] ⟨[("docs", Entry.dir [])], false⟩ (by decide)).1,
   (delete_collection_amended.2.1 "docs" [] ⟨[("docs", Entry.dir [])], false⟩ (by decide)).2.2.2.2.2,
   delete_collection_amended.2.2 "notes" ⟨[("notes", Entry.file)], true⟩ (by decide)⟩

/-! ### Scratch-file cleanup (C9) -/

/-- C9: evaluated at an upload whose stream copy into the scratch file
fails after `NamedTemporaryFile(delete=False)` created it.  Because
`temp_path` is assigned only after `shutil.copyfileobj` succeeds, the
`finally` block dereferences an unbound `temp_path`, raising `NameError`
instead of unlinking, and the scratch copy survives the request
(`scratch = true` in the returned state) — refuting guaranteed cleanup on
every exit path.  On the succeeding path the scratch copy is removed. -/
theorem scratch_leak_on_copy_failure :
    upload "doc.txt" "docs" ⟨false, Except.ok "text"⟩ ⟨[], false⟩ =
      (Except.error (ApiError.serverError TryExc.copyFailed), ⟨[], true⟩) ∧
    (upload "doc.txt" "docs" ⟨true, Except.ok "text"⟩ ⟨[], false⟩).2.scratch = false := by
  refine ⟨by decide, by decide⟩

end KB

namespace Calc

/-! ### Calculator safety (C10) -/

/-- C10: `safe_eval` evaluates only expressions built from numeric
literals combined with the whitelisted operators — whenever `eval_node`
returns a value, every node of the expression is a numeric literal, a
`SAFE_OPS` binary operation, or unary negation; and any other node at the
head of an expression (name, call, attribute, subscript, comparison,
non-numeric constant, or an operator outside `SAFE_OPS`) evaluates to
`ValueError` without evaluating anything, so no input reaches arbitrary
code execution. -/
theorem safe_eval_safety :
    (∀ (e : PyExpr) (v : ℚ), eval_node e = Except.ok v → safeOnly e = true) ∧
    (∀ e : PyExpr, unsafeHead e = true →
      eval_node e = Except.error EvalErr.valueError) := by
  constructor
  · intro e
    induction e with
    | num v => intro w h; rfl
    | constOther => intro w h; simp [eval_node] at h
    | name id => intro w h; simp [eval_node] at h
    | binOp op l r ihl ihr =>
      intro w h
      simp only [eval_node] at h
      cases hop : binOpFn op with
      | none => rw [hop] at h; simp at h
      | some f =>
        rw [hop] at h
        cases hl : eval_node l with
        | error e1 => rw [hl] at h; simp at h
        | ok lv =>
          rw [hl] at h
          cases hr : eval_node r with
          | error e2 => rw [hr] at h; simp at h
          | ok rv =>
            simp [safeOnly, hop, ihl lv hl, ihr rv hr]
    | unaryOp op e ih =>
      intro w h
      simp only [eval_node] at h
      cases hop : unOpFn op with
      | none => rw [hop] at h; simp at h
      | some f =>
        rw [hop] at h
        cases he : eval_node e with
        | error e1 => rw [he] at h; simp at h
        | ok v =>
          simp [safeOnly, hop, ih v he]
    | call func argc ih => intro w h; simp [eval_node] at h
    | attrAccess value attrName ih => intro w h; simp [eval_node] at h
    | subscript value index ih1 ih2 => intro w h; simp [eval_node] at h
    | compare left right ih1 ih2 => intro w h; simp [eval_node] at h
  · intro e h
    cases e with
    | num v => simp [unsafeHead] at h
    | constOther => rfl
    | name id => rfl
    | binOp op l r =>
      simp only [unsafeHead, Option.isNone_iff_eq_none] at h
      simp [eval_node, h]
    | unaryOp op e =>
      simp only [unsafeHead, Option.isNone_iff_eq_none] at h
      simp [eval_node, h]
    | call func argc => rfl
    | attrAccess value attrName => rfl
    | subscript value index => rfl
    | compare left right => rfl

/-- Witness for C10 at concrete inputs: a literal evaluates and is in the
safe fragment; a call node (the shape of any code-execution attempt such
as an `__import__` call) yields `ValueError`. -/
theorem safe_eval_safety_witness :
    safeOnly (PyExpr.num 5) = true ∧
    eval_node (PyExpr.call (PyExpr.name "__import__") 1) =
      Except.error EvalErr.valueError :=
  ⟨safe_eval_safety.1 (PyExpr.num 5) 5 rfl,
   safe_eval_safety.2 (PyExpr.call (PyExpr.name "__import__") 1) rfl⟩

end Calc
